import Mathlib


/-!
Verification of the address-resolution core of the Price-Bot repository.

The Python sources embedded here:
  * `testy0703.py`   — `norm_key`, `OLD_TO_NEW_VOIV_RAW`, `map_old_voiv`,
                       `filter_candidates`, `stable_values`, the relaxation
                       cascade of `App.check_and_fill`;
  * `adres_otodom.py` — `_czysc`, `_tylko_dzielnica`, `_is_voivodeship`,
                       `CITY_COUNTY`, `VOIVODESHIPS`, `VOIVODESHIP_BY_CITY`,
                       `parsuj_adres_string`, `_consistency_pass_row`;
  * `build_kw_prefix_map.py` — `clean_text`, `norm_key`;
  * `popraw_adres.py` — `norm_val`, the per-row enrichment loop of `main`.

Python strings are modelled as `String`; `None` for an address field is
modelled as `""` (every use in the sources is a truthiness test, on which
`None` and `""` agree).  `str.lower()` / `str.casefold()` are modelled on
the character set actually occurring in the data (ASCII plus the Polish
diacritic letters); `str.strip()` / `\s` use the ASCII whitespace class.
-/

/-- ASCII whitespace, as matched by Python's `\s` and stripped by `str.strip()`
on the inputs in play. -/
def isWs (c : Char) : Bool :=
  c = ' ' || c = '\t' || c = '\n' || c = '\r' || c = '\x0b' || c = '\x0c'


/-- Python `str.lower()` on one character, for ASCII and the nine Polish
uppercase diacritic letters. -/
def pyLower1 (c : Char) : Char :=
  if c = 'Ą' then 'ą' else if c = 'Ć' then 'ć' else if c = 'Ę' then 'ę'
  else if c = 'Ł' then 'ł' else if c = 'Ń' then 'ń' else if c = 'Ó' then 'ó'
  else if c = 'Ś' then 'ś' else if c = 'Ź' then 'ź' else if c = 'Ż' then 'ż'
  else c.toLower


/-- Python `str.lower()` (also standing in for `str.casefold()`, which agrees
with it on this character set). -/
def pyLower (s : String) : String := String.mk (s.data.map pyLower1)


/-- The `DIAC_MAP` translation table of `testy0703.py` / `build_kw_prefix_map.py`:
strip Polish diacritics character by character. -/
def diac1 (c : Char) : Char :=
  if c = 'ą' then 'a' else if c = 'ć' then 'c' else if c = 'ę' then 'e'
  else if c = 'ł' then 'l' else if c = 'ń' then 'n' else if c = 'ó' then 'o'
  else if c = 'ś' then 's' else if c = 'ź' then 'z' else if c = 'ż' then 'z'
  else if c = 'Ą' then 'A' else if c = 'Ć' then 'C' else if c = 'Ę' then 'E'
  else if c = 'Ł' then 'L' else if c = 'Ń' then 'N' else if c = 'Ó' then 'O'
  else if c = 'Ś' then 'S' else if c = 'Ź' then 'Z' else if c = 'Ż' then 'Z'
  else c


/-- `s.translate(DIAC_MAP)`. -/
def translateDiac (s : String) : String := String.mk (s.data.map diac1)


/-- Python `str.strip()` on a character list. -/
def pyStripL (l : List Char) : List Char :=
  ((l.dropWhile isWs).reverse.dropWhile isWs).reverse


/-- Python `str.strip()`. -/
def pyStrip (s : String) : String := String.mk (pyStripL s.data)


/-- Split a character list into maximal whitespace-free words (accumulator is
the current word, reversed). -/
def wordsAux : List Char → List Char → List (List Char)
  | [], acc => if acc = [] then [] else [acc.reverse]
  | c :: cs, acc =>
    if isWs c then
      if acc = [] then wordsAux cs [] else acc.reverse :: wordsAux cs []
    else wordsAux cs (c :: acc)


/-- Join words with single spaces (Python `" ".join`). -/
def joinWords : List (List Char) → List Char
  | [] => []
  | [w] => w
  | w :: ws => w ++ ' ' :: joinWords ws


/-- `re.sub(r"\s+", " ", t).strip()` on a character list: collapse whitespace
runs to single spaces and trim, namely `_czysc` of `adres_otodom.py` (and the
whitespace treatment of `clean_text` in `build_kw_prefix_map.py` and
`norm_val` in `popraw_adres.py`). -/
def czyscL (l : List Char) : List Char := joinWords (wordsAux l [])


/-- `_czysc` of `adres_otodom.py`: collapse whitespace runs and trim. -/
def czysc (s : String) : String := String.mk (czyscL s.data)


/-- Try to strip the prefix `pre` followed by at least one whitespace character
(one alternative of the anchored regex `^(wojew[oó]dztwo|woj\.)\s+`; the `\s+`
is greedy, so the whole following whitespace run is removed). -/
def stripPreWs (pre : List Char) (l : List Char) : Option (List Char) :=
  if l.take pre.length = pre then
    match l.drop pre.length with
    | [] => none
    | c :: rest => if isWs c then some (List.dropWhile isWs (c :: rest)) else none
  else none


/-- `re.sub(r"^(wojew[oó]dztwo|woj\.)\s+", "", s)` on a lowercased string:
the two spellings of the first alternative, then `woj.`. -/
def stripWoj (l : List Char) : List Char :=
  match stripPreWs "województwo".data l with
  | some r => r
  | none =>
    match stripPreWs "wojewodztwo".data l with
    | some r => r
    | none =>
      match stripPreWs "woj.".data l with
      | some r => r
      | none => l


/-- `norm_key` of `testy0703.py`: strip, lowercase, drop a leading
`województwo `/`woj. ` prefix, strip Polish diacritics.  (`None` input, which
yields `""` in the source, is modelled by `""`.) -/
def norm_key (s : String) : String :=
  translateDiac (String.mk (stripWoj (pyLower (pyStrip s)).data))


/-- `OLD_TO_NEW_VOIV_RAW` of `testy0703.py`, verbatim. -/
def OLD_TO_NEW_VOIV_RAW : List (String × String) := [
  ("białostockie", "podlaskie"), ("bielskie", "śląskie"), ("bydgoskie", "kujawsko-pomorskie"),
  ("chełmskie", "lubelskie"), ("ciechanowskie", "mazowieckie"), ("częstochowskie", "śląskie"),
  ("elbląskie", "warmińsko-mazurskie"), ("gdańskie", "pomorskie"), ("gorzowskie", "lubuskie"),
  ("jeleniogórskie", "dolnośląskie"), ("kaliskie", "wielkopolskie"), ("katowickie", "śląskie"),
  ("kieleckie", "świętokrzyskie"), ("koszalińskie", "zachodniopomorskie"), ("krakowskie", "małopolskie"),
  ("krośnieńskie", "podkarpackie"), ("legnickie", "dolnośląskie"), ("leszczyńskie", "wielkopolskie"),
  ("łomżyńskie", "podlaskie"), ("nowosądeckie", "małopolskie"), ("olsztyńskie", "warmińsko-mazurskie"),
  ("opole", "opolskie"), ("ostrołęckie", "mazowieckie"), ("piotrkowskie", "łódzkie"),
  ("płockie", "mazowieckie"), ("poznańskie", "wielkopolskie"), ("przemyskie", "podkarpackie"),
  ("radomskie", "mazowieckie"), ("rzeszowskie", "podkarpackie"), ("siedleckie", "mazowieckie"),
  ("sieradzkie", "łódzkie"), ("skierniewickie", "łódzkie"), ("słupskie", "pomorskie"),
  ("suwałskie", "podlaskie"), ("szczecińskie", "zachodniopomorskie"), ("tarnobrzeskie", "podkarpackie"),
  ("tarnowskie", "małopolskie"), ("toruńskie", "kujawsko-pomorskie"), ("wałbrzyskie", "dolnośląskie"),
  ("warszawskie", "mazowieckie"), ("włocławskie", "kujawsko-pomorskie"), ("wrocławskie", "dolnośląskie"),
  ("zamojsko-chełmskie", "lubelskie"), ("zielonogórskie", "lubuskie")]


/-- `OLD_TO_NEW_VOIV = {norm_key(k): v for k, v in OLD_TO_NEW_VOIV_RAW.items()}`.
The 44 normalized keys are pairwise distinct (checked below), so dict lookup
coincides with first-match association-list lookup. -/
def OLD_TO_NEW_VOIV : List (String × String) :=
  OLD_TO_NEW_VOIV_RAW.map (fun p => (norm_key p.1, p.2))


/-- `OLD_TO_NEW_VOIV.get(n, default)` for a normalized key `n`. -/
def lookupOldVoiv (k : String) : Option String :=
  (OLD_TO_NEW_VOIV.find? (fun p => p.1 == k)).map Prod.snd


/-- `map_old_voiv` of `testy0703.py`. -/
def map_old_voiv (s : String) : String := (lookupOldVoiv (norm_key s)).getD s


/-- `VOIVODESHIPS` of `adres_otodom.py`: the 16 current province names. -/
def VOIVODESHIPS : List String := [
  "Dolnośląskie", "Kujawsko-Pomorskie", "Lubelskie", "Lubuskie", "Łódzkie", "Małopolskie",
  "Mazowieckie", "Opolskie", "Podkarpackie", "Podlaskie", "Pomorskie", "Śląskie",
  "Świętokrzyskie", "Warmińsko-Mazurskie", "Wielkopolskie", "Zachodniopomorskie"]


/-- One row of the TERYT reference sheet, as loaded by `load_teryt`
(`Województwo`, `Powiat`, `Gmina`, `Miejscowość`, `Dzielnica`). -/
structure TRow where
  woj : String
  pow : String
  gmi : String
  mie : String
  dzi : String
deriving DecidableEq, Repr


/-- The per-record test of `filter_candidates`: each processed non-empty
filter key must equal the record's normalized field. -/
def filtPass (w p g m d : String) (r : TRow) : Bool :=
  (w == "" || norm_key r.woj == w) &&
  (p == "" || norm_key r.pow == p) &&
  (g == "" || norm_key r.gmi == g) &&
  (m == "" || norm_key r.mie == m) &&
  (d == "" || norm_key r.dzi == d)


/-- `filter_candidates` of `testy0703.py`.  A `None` argument of the source is
modelled by `""` (both are falsy there). -/
def filter_candidates (rows : List TRow) (w p g m d : String) : List TRow :=
  let w1 := if w ≠ "" then norm_key (map_old_voiv w) else ""
  let p1 := if p ≠ "" then norm_key p else ""
  let g1 := if g ≠ "" then norm_key g else ""
  let m1 := if m ≠ "" then norm_key m else ""
  let d1 := if d ≠ "" then norm_key d else ""
  rows.filter (filtPass w1 p1 g1 m1 d1)


/-- Step 0 of `App.check_and_fill`: a non-empty province entry is replaced by
`map_old_voiv` of itself before the queries. -/
def mapW (w : String) : String := if w ≠ "" then map_old_voiv w else w


/-- The relaxation cascade of `App.check_and_fill` (steps A–D): full filters,
then province+locality if `w or m`, then locality alone if `m`, then
municipality alone if `g`, each step taken only while the previous result is
empty. -/
def candsFor (rows : List TRow) (w p g m d : String) : List TRow :=
  let w1 := mapW w
  let a := filter_candidates rows w1 p g m d
  let b := if a = [] ∧ (w1 ≠ "" ∨ m ≠ "") then filter_candidates rows w1 "" "" m "" else a
  let c := if b = [] ∧ m ≠ "" then filter_candidates rows "" "" "" m "" else b
  if c = [] ∧ g ≠ "" then filter_candidates rows "" "" g "" "" else c


/-- Modelled from the spec wording of claim C1 (for comparison with
`candsFor`): unconditionally re-query at each level while the previous level
is empty — (full) → (province+locality) → (locality) → (municipality) —
and act on the first non-empty level. -/
def specRelaxCascade (rows : List TRow) (w p g m d : String) : List TRow :=
  let a := filter_candidates rows w p g m d
  if a ≠ [] then a else
  let b := filter_candidates rows w "" "" m ""
  if b ≠ [] then b else
  let c := filter_candidates rows "" "" "" m ""
  if c ≠ [] then c else
  filter_candidates rows "" "" g "" ""


/-- The query levels `App.check_and_fill` actually attempts: the full query
always, each relaxed level only under its guard. -/
def relaxAttempts (rows : List TRow) (w p g m d : String) : List (List TRow) :=
  [filter_candidates rows (mapW w) p g m d]
  ++ (if mapW w ≠ "" ∨ m ≠ "" then [filter_candidates rows (mapW w) "" "" m ""] else [])
  ++ (if m ≠ "" then [filter_candidates rows "" "" "" m ""] else [])
  ++ (if g ≠ "" then [filter_candidates rows "" "" g "" ""] else [])


/-- First non-empty entry of a list of candidate lists (empty if none). -/
def firstNonempty : List (List TRow) → List TRow
  | [] => []
  | l :: ls => if l = [] then firstNonempty ls else l


/-- The five administrative fields. -/
inductive TField
  | fWoj
  | fPow
  | fGmi
  | fMie
  | fDzi
deriving DecidableEq, Repr


/-- Field projection. -/
def tget : TField → TRow → String
  | .fWoj, r => r.woj
  | .fPow, r => r.pow
  | .fGmi, r => r.gmi
  | .fMie, r => r.mie
  | .fDzi, r => r.dzi


/-- `stable_values` of `testy0703.py` for one field: the set
`{rec[f] for rec in cands if str(rec[f]).strip() != ""}` of raw values with
non-blank content; the field is stable exactly when that set is a singleton. -/
def stableVal (cands : List TRow) (f : TField) : Option String :=
  match ((cands.map (tget f)).filter (fun v => pyStrip v != "")).dedup with
  | [v] => some v
  | _ => none


/-- The multi-candidate branch of `App.check_and_fill` (lines 192–200): every
stable field of the entry row is overwritten with its stable value, the other
fields are left as they are. -/
def fillStable (row : TRow) (cands : List TRow) : TRow :=
  { woj := (stableVal cands .fWoj).getD row.woj
    pow := (stableVal cands .fPow).getD row.pow
    gmi := (stableVal cands .fGmi).getD row.gmi
    mie := (stableVal cands .fMie).getD row.mie
    dzi := (stableVal cands .fDzi).getD row.dzi }


/-- The spec-level stability property for claim C2: `v` is the common value of
all candidates that have a non-blank value for field `f`, and at least one
candidate attains it. -/
def StableP (cands : List TRow) (f : TField) (v : String) : Prop :=
  pyStrip v ≠ "" ∧ (∃ r ∈ cands, tget f r = v) ∧
    ∀ r ∈ cands, pyStrip (tget f r) ≠ "" → tget f r = v


/-- `CITY_COUNTY` of `adres_otodom.py`: the cities with county rights. -/
def CITY_COUNTY : List String := [
  "Warszawa", "Kraków", "Łódź", "Wrocław", "Poznań", "Gdańsk", "Gdynia", "Sopot", "Szczecin",
  "Bydgoszcz", "Toruń", "Lublin", "Białystok", "Katowice", "Kielce", "Rzeszów", "Olsztyn",
  "Opole", "Zielona Góra", "Gorzów Wielkopolski", "Jelenia Góra", "Wałbrzych", "Ruda Śląska",
  "Gliwice", "Zabrze", "Bytom", "Chorzów", "Tychy", "Dąbrowa Górnicza", "Sosnowiec",
  "Jaworzno", "Piekary Śląskie", "Świętochłowice", "Siemianowice Śląskie", "Mysłowice",
  "Tarnów", "Nowy Sącz", "Legnica", "Słupsk", "Koszalin", "Elbląg", "Grudziądz"]


/-- `VOIVODESHIP_BY_CITY` of `adres_otodom.py`. -/
def VOIVODESHIP_BY_CITY : List (String × String) := [
  ("Warszawa", "Mazowieckie"), ("Kraków", "Małopolskie"), ("Łódź", "Łódzkie"),
  ("Wrocław", "Dolnośląskie"), ("Poznań", "Wielkopolskie"), ("Gdańsk", "Pomorskie"),
  ("Gdynia", "Pomorskie"), ("Sopot", "Pomorskie"), ("Szczecin", "Zachodniopomorskie"),
  ("Bydgoszcz", "Kujawsko-Pomorskie"), ("Toruń", "Kujawsko-Pomorskie"), ("Lublin", "Lubelskie"),
  ("Białystok", "Podlaskie"), ("Katowice", "Śląskie"), ("Kielce", "Świętokrzyskie"),
  ("Rzeszów", "Podkarpackie"), ("Olsztyn", "Warmińsko-Mazurskie"), ("Opole", "Opolskie"),
  ("Zielona Góra", "Lubuskie"), ("Gorzów Wielkopolski", "Lubuskie"),
  ("Radom", "Mazowieckie"), ("Częstochowa", "Śląskie")]


/-- The mutable address fields read and written by `_consistency_pass_row`
(dict keys `miejscowosc`, `powiat`, `gmina`). -/
structure ARow where
  miejscowosc : String
  powiat : String
  gmina : String
deriving DecidableEq, Repr


/-- `_consistency_pass_row` of `adres_otodom.py`, as a pure function on the
three fields.  The local variables `msc`, `powiat`, `gmina` are the cleaned
values; only assigned dict keys change, unassigned keys keep their raw value. -/
def consistencyPass (r : ARow) : ARow :=
  let pow0 := czysc r.powiat
  let gmi0 := czysc r.gmina
  let s1 : String × String :=
    if czysc r.miejscowosc = "" ∧ gmi0 ≠ "" then (gmi0, gmi0)
    else (r.miejscowosc, czysc r.miejscowosc)
  let s2 : String × String :=
    if s1.2 ≠ "" ∧ pow0 ≠ "" ∧ pyLower s1.2 = pyLower pow0 ∧ gmi0 ≠ "" then (gmi0, gmi0)
    else s1
  if s2.2 ∈ CITY_COUNTY then
    { miejscowosc := s2.1
      powiat := if pow0 = "" ∨ pyLower pow0 ≠ pyLower s2.2 then s2.2 else r.powiat
      gmina := if gmi0 = "" ∨ pyLower gmi0 ≠ pyLower s2.2 then s2.2 else r.gmina }
  else
    { miejscowosc := s2.1, powiat := r.powiat, gmina := r.gmina }


/-- Python `str.replace(pat, "")`: remove every (non-overlapping, leftmost)
occurrence of `pat`. -/
def removeAll (pat : List Char) (l : List Char) : List Char :=
  match l with
  | [] => []
  | c :: cs =>
    if h : pat ≠ [] ∧ (c :: cs).take pat.length = pat then
      removeAll pat ((c :: cs).drop pat.length)
    else c :: removeAll pat cs
termination_by l.length
decreasing_by
  · simp only [List.length_drop, List.length_cons]
    have hpat : 0 < pat.length := List.length_pos.mpr h.1
    omega
  · simp only [List.length_cons]
    omega


/-- `VOIVODESHIPS_LOWER.get(s)`: canonical spelling of a province name given
its lowercase form. -/
def lookupVoivLower (s : String) : Option String :=
  VOIVODESHIPS.find? (fun v => pyLower v == s)


/-- `_is_voivodeship` of `adres_otodom.py`. -/
def isVoiv (seg : String) : Option String :=
  if seg = "" then none
  else
    let s := pyStrip (String.mk (removeAll "woj.".data
      (removeAll "województwo".data (pyLower (czysc seg)).data)))
    lookupVoivLower s


/-- `_tylko_dzielnica` of `adres_otodom.py`:
`re.split(r'\s*[,/]\s*', txt.strip(), maxsplit=1)[0]`, i.e. the part of the
stripped text before the first `,` or `/`, with trailing whitespace removed. -/
def tylkoDzielnica (txt : String) : String :=
  if txt = "" then ""
  else
    String.mk
      (((pyStripL txt.data).takeWhile (fun c => !(c = ',' || c = '/'))).reverse.dropWhile
        isWs).reverse


/-- `VOIVODESHIP_BY_CITY[c]`. -/
def lookupCityVoiv (c : String) : Option String :=
  (VOIVODESHIP_BY_CITY.find? (fun p => p.1 == c)).map Prod.snd


/-- The parser's output dict (`None` fields modelled by `""`). -/
structure Guess where
  ulica_typ : String
  ulica_nazwa : String
  nr : String
  poddzielnica : String
  dzielnica : String
  miasto : String
  gmina : String
  powiat : String
  wojewodztwo : String
  oryginal : String
deriving DecidableEq, Repr


/-- The results of the `re.search` calls made by `parsuj_adres_string`, as a
parameter: each search is a total function returning an optional match
(`re.search` on a compiled pattern returns a match or `None`, never raises).
`wojM`/`powiatM`/`gminaM` give group 1 of the labeled-segment patterns;
`streetM` gives, for the first street pattern that matches, the street-type
fragment (group of the `^(ul\.?|ulica|...)` search on the whole match),
group 1 (name) and group 2 (number); `segKeyword` is the test
`re.search(r'\b(ul\.?|ulica|...|gmina|powiat|Polska)\b', seg, re.I)`. -/
structure ReSearch where
  wojM : String → Option String
  powiatM : String → Option String
  gminaM : String → Option String
  streetM : String → Option (Option String × String × Option String)
  segKeyword : String → Bool


/-- One step of the comma-segment loop of `parsuj_adres_string`: state is
(`wojewodztwo` so far, `loc_clean` so far). -/
def segStep (o : ReSearch) (st : String × List String) (seg : String) : String × List String :=
  match isVoiv seg with
  | some w =>
    if st.1 = "" then (w, st.2)
    else if o.segKeyword seg then st else (st.1, st.2 ++ [seg])
  | none => if o.segKeyword seg then st else (st.1, st.2 ++ [seg])


/-- `parsuj_adres_string` of `adres_otodom.py`.  The regex-search results come
from `o`; everything else (comma segmentation, locality heuristics, swap
correction, province back-fill) is concrete. -/
def parsuj (o : ReSearch) (tekst : String) : Guess :=
  if tekst = "" then ⟨"", "", "", "", "", "", "", "", "", tekst⟩
  else
    let t := " " ++ tekst ++ " "
    let woj0 : String :=
      match o.wojM t with
      | some g => let w := czysc g; (lookupVoivLower (pyLower w)).getD w
      | none => ""
    let powiat : String := ((o.powiatM t).map czysc).getD ""
    let gmina : String := ((o.gminaM t).map czysc).getD ""
    let street := o.streetM t
    let ulicaTyp : String :=
      match street with
      | some (some f, _, _) => pyLower (String.mk (f.data.filter (fun c => c ≠ '.')))
      | some (none, _, _) => ""
      | none => ""
    let ulicaNazwa : String :=
      match street with
      | some (_, g1, _) => czysc g1
      | none => ""
    let nr : String :=
      match street with
      | some (_, _, some g2) => czysc g2
      | _ => ""
    let parts := ((t.splitOn ",").filter (fun x => pyStrip x ≠ "")).map czysc
    let wl := parts.foldl (segStep o) (woj0, [])
    let rev := wl.2.reverse
    let miasto0 : String := match rev with | [] => "" | c :: _ => c
    let dzielnica0 : String := match rev with | _ :: d :: _ => tylkoDzielnica d | _ => ""
    let poddzielnica0 : String := match rev with | _ :: _ :: q :: _ => tylkoDzielnica q | _ => ""
    let dzc := czysc dzielnica0
    let doSwap : Bool := (miasto0 != "" && dzielnica0 != "") &&
      (VOIVODESHIP_BY_CITY.any (fun p => p.1 == dzc) || CITY_COUNTY.contains dzc)
    let miasto1 := if doSwap then dzc else miasto0
    let dzielnica1 := if doSwap then tylkoDzielnica miasto0 else dzielnica0
    let woj2 :=
      if wl.1 = "" ∧ (VOIVODESHIP_BY_CITY.any (fun p => p.1 == miasto1)) then
        (lookupCityVoiv miasto1).getD ""
      else wl.1
    let dzielnica2 := if dzielnica1 ≠ "" then tylkoDzielnica dzielnica1 else dzielnica1
    let poddzielnica1 := if poddzielnica0 ≠ "" then tylkoDzielnica poddzielnica0 else poddzielnica0
    ⟨ulicaTyp, ulicaNazwa, nr, poddzielnica1, dzielnica2, miasto1, gmina, powiat, woj2, tekst⟩


/-- `norm_val` of `popraw_adres.py`: collapse whitespace, map the literal
junk spellings to `""`, casefold.  A missing (`NaN`) cell is modelled by `""`. -/
def norm_val (v : String) : String :=
  let s := czysc v
  if pyLower s ∈ (["", "nan", "none", "null"] : List String) then "" else pyLower s


/-- One input row: `Nr KW`, the six address columns, the three price columns. -/
structure PRow where
  nrKW : String
  woj : String
  pow : String
  gmi : String
  mie : String
  dzi : String
  ul : String
  cena1 : String
  cena2 : String
  cena3 : String
deriving DecidableEq, Repr


/-- One TERYT row of `popraw_adres.py` (five base columns plus an optional
`Ulica` column, used only when the sheet has it). -/
structure TeRow where
  woj : String
  pow : String
  gmi : String
  mie : String
  dzi : String
  ul : String
deriving DecidableEq, Repr


/-- The "address missing" sentinel written into the price columns. -/
def BRAK : String := "brak adresu"


/-- `filled_count`: how many of the six address columns are non-empty after
`norm_val`. -/
def filledCount (r : PRow) : Nat :=
  [r.woj, r.pow, r.gmi, r.mie, r.dzi, r.ul].countP (fun v => norm_val v != "")


/-- How many of the five base columns are non-empty (the `cols_for_matching`
emptiness test of the `filled_count == 2` branch). -/
def baseFilledCount (r : PRow) : Nat :=
  [r.woj, r.pow, r.gmi, r.mie, r.dzi].countP (fun v => norm_val v != "")


/-- `cols_for_matching` size of the `filled_count >= 3` branch (probe includes
`Ulica` when the TERYT sheet has it). -/
def probeFilledCount (hasUl : Bool) (r : PRow) : Nat :=
  baseFilledCount r + (if hasUl ∧ norm_val r.ul ≠ "" then 1 else 0)


/-- `build_mask` over the five base columns: every non-empty probe column must
agree with the TERYT row under `norm_val`. -/
def baseMatch (row : PRow) (tr : TeRow) : Bool :=
  (norm_val row.woj == "" || norm_val tr.woj == norm_val row.woj) &&
  (norm_val row.pow == "" || norm_val tr.pow == norm_val row.pow) &&
  (norm_val row.gmi == "" || norm_val tr.gmi == norm_val row.gmi) &&
  (norm_val row.mie == "" || norm_val tr.mie == norm_val row.mie) &&
  (norm_val row.dzi == "" || norm_val tr.dzi == norm_val row.dzi)


/-- `build_mask` including the `Ulica` column when present. -/
def fullMatch (hasUl : Bool) (row : PRow) (tr : TeRow) : Bool :=
  baseMatch row tr &&
  (!hasUl || norm_val row.ul == "" || norm_val tr.ul == norm_val row.ul)


/-- The single-candidate branch: fill the empty base columns (and `Ulica`,
when the sheet has it) from the candidate. -/
def fillFromCand (hasUl : Bool) (row : PRow) (tr : TeRow) : PRow :=
  { row with
    woj := if norm_val row.woj = "" then tr.woj else row.woj
    pow := if norm_val row.pow = "" then tr.pow else row.pow
    gmi := if norm_val row.gmi = "" then tr.gmi else row.gmi
    mie := if norm_val row.mie = "" then tr.mie else row.mie
    dzi := if norm_val row.dzi = "" then tr.dzi else row.dzi
    ul := if hasUl ∧ norm_val row.ul = "" then tr.ul else row.ul }


/-- One part of `concat_address`: the stripped cell value, kept when non-empty
and not a junk spelling. -/
def keepAddrPart (v : String) : Option String :=
  let s := pyStrip v
  if s ≠ "" ∧ pyLower s ∉ (["nan", "none", "null"] : List String) then some s else none


/-- `concat_address` of `popraw_adres.py`. -/
def concatAddr (hasUl : Bool) (tr : TeRow) : String :=
  ", ".intercalate
    (([tr.woj, tr.pow, tr.gmi, tr.mie, tr.dzi] ++ (if hasUl then [tr.ul] else [])).filterMap
      keepAddrPart)


/-- The multi-candidate text: `" | ".join(sorted(set(non-empty addresses))[:50])`. -/
def multiText (hasUl : Bool) (cands : List TeRow) : String :=
  let uniq := (((cands.map (concatAddr hasUl)).filter (fun a => a != "")).dedup).insertionSort
    (fun a b => a ≤ b)
  " | ".intercalate (uniq.take 50)


/-- Write one text into all three price columns. -/
def setPrices (r : PRow) (s : String) : PRow :=
  { r with cena1 := s, cena2 := s, cena3 := s }


/-- Result of one iteration of the row loop: the (possibly updated) row,
whether a TERYT query was made, and whether the row was counted as processed. -/
structure StepRes where
  out : PRow
  queried : Bool
  counted : Bool
deriving DecidableEq, Repr


/-- One iteration of the row loop of `popraw_adres.main` (lines 252–325),
after the initial name-fix pass: rows with empty `Nr KW` are skipped without
counting; `filled_count == 0` writes the sentinel; `filled_count == 2` and
`>= 3` query TERYT; any other count (i.e. exactly one filled column) falls
through and leaves the row untouched. -/
def processRow (teryt : List TeRow) (hasUl : Bool) (row : PRow) : StepRes :=
  if norm_val row.nrKW = "" then ⟨row, false, false⟩
  else if filledCount row = 0 then ⟨setPrices row BRAK, false, true⟩
  else if filledCount row = 2 then
    if baseFilledCount row = 0 then ⟨setPrices row BRAK, false, true⟩
    else
      match teryt.filter (baseMatch row) with
      | [] => ⟨setPrices row BRAK, true, true⟩
      | [c] => ⟨fillFromCand hasUl row c, true, true⟩
      | cs => ⟨setPrices row (if multiText hasUl cs ≠ "" then multiText hasUl cs else BRAK),
          true, true⟩
  else if 3 ≤ filledCount row then
    if probeFilledCount hasUl row = 0 then ⟨setPrices row BRAK, false, true⟩
    else
      match teryt.filter (fullMatch hasUl row) with
      | [] => ⟨setPrices row BRAK, true, true⟩
      | [c] => ⟨fillFromCand hasUl row c, true, true⟩
      | cs => ⟨setPrices row (if multiText hasUl cs ≠ "" then multiText hasUl cs else BRAK),
          true, true⟩
  else ⟨row, false, true⟩


/-- The zero-width / soft-hyphen / BOM characters removed by `clean_text`. -/
def isZeroWidth (c : Char) : Bool :=
  c = '­' || c = '​' || c = '‌' || c = '‍' || c = '﻿'


/-- The special spaces `clean_text` replaces by an ASCII space. -/
def specialWs (c : Char) : Char :=
  if c = ' ' ∨ c = ' ' ∨ c = ' ' then ' ' else c


/-- `clean_text` of `build_kw_prefix_map.py` (the NFC normalization step is
the identity on the composed strings modelled here). -/
def clean_text (s : String) : String :=
  czysc (String.mk ((s.data.map specialWs).filter (fun c => !(isZeroWidth c))))


/-- `norm_key` of `build_kw_prefix_map.py`: `clean_text(s).lower().translate(DIAC_MAP)`. -/
def norm_key_kw (s : String) : String := translateDiac (pyLower (clean_text s))


/-- A one-row registry for the witness. -/
def zrow : TRow := ⟨"Mazowieckie", "żyrardowski", "Żyrardów", "Żyrardów", ""⟩


/-- The two Wadowice registry rows of the claim's scenario: identical except
for the district. -/
def wadA : TRow := ⟨"Małopolskie", "wadowicki", "Wadowice", "Wadowice", "Wadowice-miasto"⟩


/-- Second Wadowice row. -/
def wadB : TRow := ⟨"Małopolskie", "wadowicki", "Wadowice", "Wadowice", "Wadowice-wieś"⟩


/-- An all-blank entry row. -/
def rowBlank : TRow := ⟨"", "", "", "", ""⟩


/-- First counterexample candidate: blank district. -/
def cexA : TRow := ⟨"w", "p", "g", "m", ""⟩


/-- Second counterexample candidate: non-blank district. -/
def cexB : TRow := ⟨"w", "p", "g", "m", "Centrum"⟩


/-- The one-row registry of the C1 counterexample (only its county is set). -/
def rowsC1 : List TRow := [⟨"", "abc", "", "", ""⟩]


/-- The all-empty guess. -/
def emptyGuess : Guess := ⟨"", "", "", "", "", "", "", "", "", ""⟩


/-- A row with only the locality column set. -/
def r10 : PRow := ⟨"KW10", "", "", "", "Wadowice", "", "", "", "", ""⟩


/-- A row with `Nr KW` set and every address column empty. -/
def r9e : PRow := ⟨"KW9", "", "", "", "", "", "", "", "", ""⟩


/-- A row with `Nr KW` set, empty administrative columns, and only the street
column filled. -/
def r9 : PRow := ⟨"KW9", "", "", "", "", "", "Polna", "", "", ""⟩


/-- The clean case-variant record of the C5/C6 counterexamples. -/
def r5 : ARow := ⟨"Warszawa", "", "warszawa"⟩


/-- The case-variant record for the C6 counterexample. -/
def r6 : ARow := ⟨"Warszawa", "warszawa", "Warszawa"⟩


theorem wordsAux_props (l : List Char) :
    ∀ acc, (∀ c ∈ acc, isWs c = false) →
      ∀ w ∈ wordsAux l acc, w ≠ [] ∧ ∀ c ∈ w, isWs c = false := by
  induction l with
  | nil =>
    intro acc hacc w hw
    simp only [wordsAux] at hw
    by_cases h : acc = []
    · simp [h] at hw
    · simp only [h, if_false] at hw
      simp only [List.mem_singleton] at hw
      subst hw
      refine ⟨by simpa using h, ?_⟩
      intro c hc
      exact hacc c (by simpa using hc)
  | cons c cs ih =>
    intro acc hacc w hw
    simp only [wordsAux] at hw
    by_cases hws : isWs c
    · simp only [hws, if_true] at hw
      by_cases h : acc = []
      · simp only [h, if_true] at hw
        exact ih [] (by simp) w hw
      · simp only [h, if_false, List.mem_cons] at hw
        cases hw with
        | inl hw =>
          subst hw
          refine ⟨by simpa using h, ?_⟩
          intro x hx
          exact hacc x (by simpa using hx)
        | inr hw => exact ih [] (by simp) w hw
    · simp only [hws, Bool.false_eq_true, if_false] at hw
      refine ih (c :: acc) ?_ w hw
      intro x hx
      rcases List.mem_cons.mp hx with h | h
      · subst h; simpa using hws
      · exact hacc x h


theorem wordsAux_noWs_append (w : List Char) :
    ∀ rest acc, (∀ c ∈ w, isWs c = false) →
      wordsAux (w ++ rest) acc = wordsAux rest (w.reverse ++ acc) := by
  induction w with
  | nil => intro rest acc _; simp
  | cons c cs ih =>
    intro rest acc hw
    have hc : isWs c = false := hw c (by simp)
    have hcs : ∀ x ∈ cs, isWs x = false := fun x hx => hw x (by simp [hx])
    calc wordsAux ((c :: cs) ++ rest) acc
        = wordsAux (cs ++ rest) (c :: acc) := by
          simp only [List.cons_append, wordsAux, hc, Bool.false_eq_true, if_false,
            List.append_eq]
      _ = wordsAux rest (cs.reverse ++ (c :: acc)) := ih rest (c :: acc) hcs
      _ = wordsAux rest ((c :: cs).reverse ++ acc) := by
          simp [List.reverse_cons, List.append_assoc]


theorem wordsAux_joinWords (ws : List (List Char)) :
    (∀ w ∈ ws, w ≠ [] ∧ ∀ c ∈ w, isWs c = false) →
    wordsAux (joinWords ws) [] = ws := by
  induction ws with
  | nil => intro _; simp [joinWords, wordsAux]
  | cons w ws ih =>
    intro h
    have hw := h w (by simp)
    have hwr : w.reverse ≠ [] := by simpa using hw.1
    cases ws with
    | nil =>
      have h1 : joinWords [w] = w ++ [] := by simp [joinWords]
      rw [h1, wordsAux_noWs_append w [] [] hw.2]
      simp only [wordsAux, List.append_nil, hwr, if_false]
      simp
    | cons w2 ws2 =>
      have h1 : joinWords (w :: w2 :: ws2) = w ++ (' ' :: joinWords (w2 :: ws2)) := rfl
      rw [h1, wordsAux_noWs_append w _ [] hw.2]
      have hrec := ih (fun x hx => h x (by simp [hx]))
      simp only [wordsAux, List.append_nil]
      have hsp : isWs ' ' = true := by decide
      simp [hsp, hwr, hrec]


theorem czyscL_idem (l : List Char) : czyscL (czyscL l) = czyscL l := by
  unfold czyscL
  rw [wordsAux_joinWords (wordsAux l []) (wordsAux_props l [] (by simp))]


theorem czysc_idem (s : String) : czysc (czysc s) = czysc s := by
  unfold czysc
  simp [czyscL_idem]


theorem pyStrip_space_left (s : String) : pyStrip (" " ++ s) = pyStrip s := by
  unfold pyStrip pyStripL
  have h : (" " ++ s).data = ' ' :: s.data := by simp
  rw [h, List.dropWhile_cons]
  simp [show isWs ' ' = true from by decide]


theorem dropWhile_ws_append_space (l : List Char) :
    List.dropWhile isWs (l ++ [' ']) =
      if List.dropWhile isWs l = [] then [] else List.dropWhile isWs l ++ [' '] := by
  induction l with
  | nil => simp [List.dropWhile_cons, show isWs ' ' = true from by decide]
  | cons c cs ih =>
    by_cases hc : isWs c
    · simp only [List.cons_append, List.dropWhile_cons, hc, if_true, ih]
    · simp [List.dropWhile_cons, hc]


theorem pyStripL_append_space (l : List Char) : pyStripL (l ++ [' ']) = pyStripL l := by
  unfold pyStripL
  rw [dropWhile_ws_append_space]
  by_cases h : List.dropWhile isWs l = []
  · simp [h]
  · simp only [h, if_false, List.reverse_append, List.reverse_cons, List.reverse_nil,
      List.nil_append, List.singleton_append, List.dropWhile_cons]
    simp [isWs]


theorem pyStrip_space_right (s : String) : pyStrip (s ++ " ") = pyStrip s := by
  unfold pyStrip
  have h : (s ++ " ").data = s.data ++ [' '] := by simp
  rw [h, pyStripL_append_space]


theorem old_to_new_keys_nodup : (OLD_TO_NEW_VOIV.map Prod.fst).Nodup := by decide


/-- C3 counterexample: `norm_key` does not strip a leading `powiat`/`gm.`
prefix and does not collapse internal whitespace runs, contrary to the claim
(which predicts `"krakowski"`, `"wadowice"` and `"a b"` here). -/
theorem norm_key_claim_cex :
    norm_key "powiat krakowski" ≠ "krakowski" ∧
    norm_key "gm. Wadowice" ≠ "wadowice" ∧
    norm_key "a  b" ≠ "a b" := by decide


/-- C3 (amended): `norm_key` of `testy0703.py` trims outer whitespace, folds
case, strips Polish diacritics and strips only a leading
`województwo `/`woj. ` prefix — it strips no `powiat`/`pow.`/`gmina`/`gm.`
prefix and keeps internal whitespace; empty input yields `""`, and the claim's
example pair `canonical_key("Łódź") = "lodz" = canonical_key("  lodz ")`
holds.  `norm_key` of `build_kw_prefix_map.py` collapses internal whitespace
but strips no prefix at all. -/
theorem norm_key_amended :
    (∀ s, norm_key (" " ++ s) = norm_key s) ∧
    (∀ s, norm_key (s ++ " ") = norm_key s) ∧
    norm_key "Łódź" = "lodz" ∧ norm_key "  lodz " = "lodz" ∧ norm_key "" = "" ∧
    norm_key "Województwo Śląskie" = "slaskie" ∧ norm_key "WOJ. Śląskie" = "slaskie" ∧
    norm_key "powiat krakowski" = "powiat krakowski" ∧
    norm_key "gm. Wadowice" = "gm. wadowice" ∧
    norm_key "a  b" = "a  b" ∧
    norm_key_kw "Łódź" = "lodz" ∧ norm_key_kw "a  b" = "a b" ∧
    norm_key_kw "woj. śląskie" = "woj. slaskie" ∧ norm_key_kw "" = "" := by
  refine ⟨?_, ?_, by decide, by decide, by decide, by decide, by decide, by decide,
    by decide, by decide, by decide, by decide, by decide, by decide⟩
  · intro s
    unfold norm_key
    rw [pyStrip_space_left]
  · intro s
    unfold norm_key
    rw [pyStrip_space_right]


/-- The 44 mapped values never hit the legacy table again. -/
theorem legacy_values_unmapped :
    ∀ v ∈ OLD_TO_NEW_VOIV.map Prod.snd, lookupOldVoiv (norm_key v) = none := by decide


/-- C4 counterexample: the legacy-province table has 44 entries, not 49. -/
theorem legacy_table_cex : ¬ OLD_TO_NEW_VOIV_RAW.length = 49 := by decide


/-- C4 (amended): the legacy-province table is a fixed 44-entry map; every
mapped value is one of the 16 current province names (up to the lowercasing
used by the table), and `map_old_voiv` is idempotent on every input. -/
theorem legacy_map_amended :
    OLD_TO_NEW_VOIV_RAW.length = 44 ∧
    (∀ p ∈ OLD_TO_NEW_VOIV_RAW, p.2 ∈ VOIVODESHIPS.map pyLower) ∧
    (∀ s, map_old_voiv (map_old_voiv s) = map_old_voiv s) := by
  refine ⟨by decide, by decide, ?_⟩
  intro s
  unfold map_old_voiv
  cases h : lookupOldVoiv (norm_key s) with
  | none => simp [h]
  | some v =>
    simp only [Option.getD_some]
    have hv : v ∈ OLD_TO_NEW_VOIV.map Prod.snd := by
      unfold lookupOldVoiv at h
      cases hf : OLD_TO_NEW_VOIV.find? (fun p => p.1 == norm_key s) with
      | none => rw [hf] at h; simp at h
      | some q =>
        rw [hf] at h
        simp only [Option.map_some'] at h
        have h2 := Option.some.inj h
        have hq := List.mem_of_find?_eq_some hf
        rw [← h2]
        exact List.mem_map_of_mem Prod.snd hq
    rw [legacy_values_unmapped v hv]
    rfl


/-- C4 witness: the table maps `katowickie` to `śląskie`, one of the 16 names,
and the map is idempotent there. -/
theorem legacy_map_amended_wit :
    "śląskie" ∈ VOIVODESHIPS.map pyLower ∧
    map_old_voiv (map_old_voiv "katowickie") = map_old_voiv "katowickie" :=
  ⟨legacy_map_amended.2.1 ("katowickie", "śląskie") (by decide),
   legacy_map_amended.2.2 "katowickie"⟩


/-- Filtering with a pointwise weaker predicate keeps at least as many
elements. -/
theorem filter_mono_length {α : Type} (p q : α → Bool) (rows : List α)
    (h : ∀ r, p r = true → q r = true) :
    (rows.filter p).length ≤ (rows.filter q).length := by
  induction rows with
  | nil => simp
  | cons r rs ih =>
    by_cases hp : p r
    · have hq := h r hp
      simp only [List.filter_cons, hp, hq, if_true, List.length_cons]
      omega
    · by_cases hq : q r
      · simp only [List.filter_cons, hp, hq, if_true, Bool.false_eq_true, if_false,
          List.length_cons]
        omega
      · simp only [List.filter_cons, hp, hq, Bool.false_eq_true, if_false]
        exact ih


/-- One conjunct of `filtPass` stays true when its filter key is kept or
emptied. -/
theorem passKey_mono (k k' v : String) (h : k' = k ∨ k' = "")
    (hk : (k == "" || v == k) = true) : (k' == "" || v == k') = true := by
  rcases h with h | h <;> subst h <;> simp_all


/-- `filtPass` is monotone under emptying filter keys. -/
theorem filtPass_mono (w p g m d w' p' g' m' d' : String)
    (hw : w' = w ∨ w' = "") (hp : p' = p ∨ p' = "") (hg : g' = g ∨ g' = "")
    (hm : m' = m ∨ m' = "") (hd : d' = d ∨ d' = "") (r : TRow)
    (hr : filtPass w p g m d r = true) : filtPass w' p' g' m' d' r = true := by
  unfold filtPass at hr ⊢
  simp only [Bool.and_eq_true] at hr ⊢
  exact ⟨⟨⟨⟨passKey_mono w w' _ hw hr.1.1.1.1, passKey_mono p p' _ hp hr.1.1.1.2⟩,
    passKey_mono g g' _ hg hr.1.1.2⟩, passKey_mono m m' _ hm hr.1.2⟩,
    passKey_mono d d' _ hd hr.2⟩


/-- The processed filter key of an emptied raw key is that of the original
key, or empty. -/
theorem procKey_relax (f : String → String) (x x' : String) (h : x' = x ∨ x' = "") :
    (if x' ≠ "" then f x' else "") = (if x ≠ "" then f x else "") ∨
      (if x' ≠ "" then f x' else "") = "" := by
  rcases h with h | h <;> subst h
  · left; rfl
  · right; simp


/-- C7: registry queries are monotone under filter relaxation — a record
matched by the stricter filters is matched by the relaxed ones (each obtained
by emptying some fields), so the stricter candidate count is at most the
relaxed one. -/
theorem query_relax_mono (rows : List TRow) (w p g m d w' p' g' m' d' : String)
    (hw : w' = w ∨ w' = "") (hp : p' = p ∨ p' = "") (hg : g' = g ∨ g' = "")
    (hm : m' = m ∨ m' = "") (hd : d' = d ∨ d' = "") :
    (∀ r ∈ filter_candidates rows w p g m d, r ∈ filter_candidates rows w' p' g' m' d') ∧
    (filter_candidates rows w p g m d).length ≤
      (filter_candidates rows w' p' g' m' d').length := by
  have hw1 := procKey_relax (fun x => norm_key (map_old_voiv x)) w w' hw
  have hp1 := procKey_relax norm_key p p' hp
  have hg1 := procKey_relax norm_key g g' hg
  have hm1 := procKey_relax norm_key m m' hm
  have hd1 := procKey_relax norm_key d d' hd
  unfold filter_candidates
  constructor
  · intro r hr
    rw [List.mem_filter] at hr ⊢
    exact ⟨hr.1, filtPass_mono _ _ _ _ _ _ _ _ _ _ hw1 hp1 hg1 hm1 hd1 r hr.2⟩
  · exact filter_mono_length _ _ rows
      (fun r => filtPass_mono _ _ _ _ _ _ _ _ _ _ hw1 hp1 hg1 hm1 hd1 r)


/-- C7 witness: dropping the province filter from a (province, locality)
query against a one-row registry cannot decrease the candidate count. -/
theorem query_relax_mono_wit :
    (filter_candidates [zrow] "Mazowieckie" "" "" "Żyrardów" "").length ≤
      (filter_candidates [zrow] "" "" "" "Żyrardów" "").length :=
  (query_relax_mono [zrow] "Mazowieckie" "" "" "Żyrardów" "" "" "" "" "Żyrardów" ""
    (Or.inr rfl) (Or.inr rfl) (Or.inr rfl) (Or.inl rfl) (Or.inr rfl)).2


/-- `dedup` is a singleton `[v]` exactly when `v` occurs and every element
equals `v`. -/
theorem dedup_eq_singleton_iff {α : Type} [DecidableEq α] (l : List α) (v : α) :
    l.dedup = [v] ↔ v ∈ l ∧ ∀ u ∈ l, u = v := by
  constructor
  · intro h
    refine ⟨List.mem_dedup.mp (by simp [h]), ?_⟩
    intro u hu
    have : u ∈ l.dedup := List.mem_dedup.mpr hu
    rw [h] at this
    simpa using this
  · rintro ⟨hv, hall⟩
    induction l with
    | nil => simp at hv
    | cons a l ih =>
      have ha : a = v := hall a (by simp)
      subst ha
      by_cases hmem : a ∈ l
      · rw [List.dedup_cons_of_mem hmem]
        exact ih hmem (fun u hu => hall u (by simp [hu]))
      · rw [List.dedup_cons_of_not_mem hmem]
        have hl : l = [] := by
          cases hc : l with
          | nil => rfl
          | cons b l2 =>
            have hb : b = a := hall b (by simp [hc])
            exact absurd (hb ▸ (hc ▸ List.mem_cons_self b l2)) hmem
        rw [hl]
        simp


/-- `stableVal` returns `some v` exactly when `v` is the stability value of
the field in the sense of `StableP`. -/
theorem stableVal_eq_some (cands : List TRow) (f : TField) (v : String) :
    stableVal cands f = some v ↔ StableP cands f v := by
  unfold stableVal StableP
  have hmem : ∀ u, u ∈ (cands.map (tget f)).filter (fun x => pyStrip x != "") ↔
      (∃ r ∈ cands, tget f r = u) ∧ pyStrip u ≠ "" := by
    intro u
    rw [List.mem_filter, List.mem_map]
    simp [bne_iff_ne]
  constructor
  · intro h
    rcases hd : ((cands.map (tget f)).filter (fun x => pyStrip x != "")).dedup with
      _ | ⟨a, _ | ⟨b, tl⟩⟩
    · rw [hd] at h; exact absurd h (by simp)
    · rw [hd] at h
      have hav : a = v := by simpa using h
      subst hav
      have hsing := (dedup_eq_singleton_iff _ a).mp hd
      have hin := (hmem a).mp hsing.1
      refine ⟨hin.2, hin.1, ?_⟩
      intro r hr hne
      exact hsing.2 (tget f r) ((hmem (tget f r)).mpr ⟨⟨r, hr, rfl⟩, hne⟩)
    · rw [hd] at h; exact absurd h (by simp)
  · rintro ⟨hvne, ⟨r, hr, hrv⟩, hall⟩
    have hsing : ((cands.map (tget f)).filter (fun x => pyStrip x != "")).dedup = [v] := by
      rw [dedup_eq_singleton_iff]
      refine ⟨(hmem v).mpr ⟨⟨r, hr, hrv⟩, hvne⟩, ?_⟩
      intro u hu
      have := (hmem u).mp hu
      rcases this.1 with ⟨r2, hr2, hru⟩
      rw [← hru]
      exact hall r2 hr2 (by rw [hru]; exact this.2)
    rw [hsing]


/-- C2 (amended): for a candidate set of two or more records the
multi-candidate fill writes field `f` exactly when the candidates' non-blank
values for `f` form a single value `v` (blank values are ignored), writing
`v`; when no such value exists — in particular when two candidates carry
distinct non-blank values — the field is left untouched. -/
theorem fillStable_stable_char (cands : List TRow) (row : TRow) (f : TField)
    (_hlen : 2 ≤ cands.length) :
    (∀ v, StableP cands f v → tget f (fillStable row cands) = v) ∧
    ((¬ ∃ v, StableP cands f v) → tget f (fillStable row cands) = tget f row) := by
  have hproj : tget f (fillStable row cands) = (stableVal cands f).getD (tget f row) := by
    cases f <;> rfl
  constructor
  · intro v hv
    rw [hproj, (stableVal_eq_some cands f v).mpr hv]
    rfl
  · intro hnone
    rw [hproj]
    cases h : stableVal cands f with
    | none => rfl
    | some v => exact absurd ⟨v, (stableVal_eq_some cands f v).mp h⟩ hnone


/-- C2 witness (the claim's Wadowice scenario): with two candidates differing
only in their non-blank districts, the shared county is filled and the
district is left blank. -/
theorem fillStable_stable_char_wit :
    tget .fPow (fillStable rowBlank [wadA, wadB]) = "wadowicki" ∧
    tget .fDzi (fillStable rowBlank [wadA, wadB]) = "" := by
  constructor
  · exact (fillStable_stable_char [wadA, wadB] rowBlank .fPow (by decide)).1 "wadowicki"
      ⟨by decide, ⟨wadA, by simp, by decide⟩, by decide⟩
  · have h2 := (fillStable_stable_char [wadA, wadB] rowBlank .fDzi (by decide)).2 ?_
    · exact h2
    · rintro ⟨v, _, _, hall⟩
      have ha := hall wadA (by simp) (by decide)
      have hb := hall wadB (by simp) (by decide)
      exact absurd (ha ▸ hb) (by decide)


/-- C2 counterexample: the two candidates disagree on the district (blank vs
`"Centrum"`), yet the multi-candidate fill writes `"Centrum"` into the blank
entry field instead of leaving it untouched. -/
theorem stable_fill_claim_cex :
    tget .fDzi cexA ≠ tget .fDzi cexB ∧
    tget .fDzi rowBlank ≠ "Centrum" ∧
    tget .fDzi (fillStable rowBlank [cexA, cexB]) = "Centrum" := by decide


/-- C1 counterexample: for the partial address with only county `"xyz"` set,
the full query is empty, and the claim's unconditional relaxation
(province+locality, both empty, matches everything) would act on the whole
registry — but `check_and_fill` skips every relaxation level (its guards
`w or m` / `m` / `g` all fail) and acts on the empty set. -/
theorem relax_cascade_cex :
    candsFor rowsC1 "" "xyz" "" "" "" ≠ specRelaxCascade rowsC1 "" "xyz" "" "" "" := by
  decide


/-- C1 (amended): the cascade of `check_and_fill` equals "first non-empty
result among the attempted levels", where the full query is always attempted,
the province+locality level only when province (after legacy mapping) or
locality is non-empty, the locality level only when locality is non-empty,
and the municipality level only when municipality is non-empty; if every
attempted level is empty the acted-on set is empty. -/
theorem candsFor_eq_firstNonempty (rows : List TRow) (w p g m d : String) :
    candsFor rows w p g m d = firstNonempty (relaxAttempts rows w p g m d) := by
  unfold candsFor relaxAttempts
  by_cases hA : filter_candidates rows (mapW w) p g m d = [] <;>
    by_cases hB : mapW w ≠ "" ∨ m ≠ "" <;>
      by_cases hC : m ≠ "" <;>
        by_cases hD : g ≠ "" <;>
          by_cases hE : filter_candidates rows (mapW w) "" "" m "" = [] <;>
            by_cases hF : filter_candidates rows "" "" "" m "" = [] <;>
              by_cases hG : filter_candidates rows "" "" g "" "" = [] <;>
                simp_all [firstNonempty]


/-- C8: for every regex-search behaviour and every input string the parser
returns a guess (it is a total function) whose `oryginal` field is the input,
and on empty input every field of the returned guess is empty. -/
theorem parsuj_total_empty (o : ReSearch) (t : String) :
    (parsuj o t).oryginal = t ∧ parsuj o "" = emptyGuess := by
  constructor
  · by_cases h : t = ""
    · subst h; rfl
    · unfold parsuj
      rw [if_neg h]
  · rfl


/-- The row loop at `filled_count = 0`: sentinel prices, no query. -/
theorem processRow_zero (teryt : List TeRow) (hasUl : Bool) (row : PRow)
    (hkw : norm_val row.nrKW ≠ "") (h0 : filledCount row = 0) :
    processRow teryt hasUl row = ⟨setPrices row BRAK, false, true⟩ := by
  unfold processRow
  rw [if_neg hkw, if_pos h0]


/-- The row loop at `filled_count = 1`: the body falls through all branches
and the row is left untouched. -/
theorem processRow_one (teryt : List TeRow) (hasUl : Bool) (row : PRow)
    (hkw : norm_val row.nrKW ≠ "") (h1 : filledCount row = 1) :
    processRow teryt hasUl row = ⟨row, false, true⟩ := by
  unfold processRow
  rw [if_neg hkw, if_neg (by omega), if_neg (by omega), if_neg (by omega)]


/-- C10: a row whose `Nr KW` normalizes to non-empty and that has exactly one
non-empty value among the six address columns is counted as processed but
left exactly as it was: no TERYT query, no field written, no sentinel. -/
theorem processRow_single_filled (teryt : List TeRow) (hasUl : Bool) (row : PRow)
    (hkw : norm_val row.nrKW ≠ "") (h1 : filledCount row = 1) :
    processRow teryt hasUl row = ⟨row, false, true⟩ :=
  processRow_one teryt hasUl row hkw h1


/-- C10 witness. -/
theorem processRow_single_filled_wit :
    processRow [] false r10 = ⟨r10, false, true⟩ :=
  processRow_single_filled [] false r10 (by decide) (by decide)


/-- C9 (amended): a processed row (non-empty `Nr KW`) whose five
administrative columns are all empty is never queried against TERYT and none
of its administrative columns is written; its price cells are set to the
`brak adresu` sentinel exactly when the `Ulica` column is empty too — when
`Ulica` is the only filled column the row is left entirely untouched. -/
theorem processRow_admin_empty (teryt : List TeRow) (hasUl : Bool) (row : PRow)
    (hkw : norm_val row.nrKW ≠ "")
    (hw : norm_val row.woj = "") (hp : norm_val row.pow = "")
    (hg : norm_val row.gmi = "") (hm : norm_val row.mie = "")
    (hd : norm_val row.dzi = "") :
    (processRow teryt hasUl row).queried = false ∧
    (processRow teryt hasUl row).counted = true ∧
    (processRow teryt hasUl row).out.woj = row.woj ∧
    (processRow teryt hasUl row).out.pow = row.pow ∧
    (processRow teryt hasUl row).out.gmi = row.gmi ∧
    (processRow teryt hasUl row).out.mie = row.mie ∧
    (processRow teryt hasUl row).out.dzi = row.dzi ∧
    (norm_val row.ul = "" → processRow teryt hasUl row = ⟨setPrices row BRAK, false, true⟩) ∧
    (norm_val row.ul ≠ "" → processRow teryt hasUl row = ⟨row, false, true⟩) := by
  by_cases hu : norm_val row.ul = ""
  · have h0 : filledCount row = 0 := by
      simp [filledCount, hw, hp, hg, hm, hd, hu]
    have hpr := processRow_zero teryt hasUl row hkw h0
    rw [hpr]
    refine ⟨rfl, rfl, rfl, rfl, rfl, rfl, rfl, fun _ => rfl, fun hne => absurd hu hne⟩
  · have h1 : filledCount row = 1 := by
      simp [filledCount, hw, hp, hg, hm, hd, hu]
    have hpr := processRow_one teryt hasUl row hkw h1
    rw [hpr]
    exact ⟨rfl, rfl, rfl, rfl, rfl, rfl, rfl, fun he => absurd he hu, fun _ => rfl⟩


/-- C9 witness: the all-empty-address row gets the sentinel and is not
queried. -/
theorem processRow_admin_empty_wit :
    (processRow [] false r9e).queried = false ∧
    processRow [] false r9e = ⟨setPrices r9e BRAK, false, true⟩ := by
  have h := processRow_admin_empty [] false r9e (by decide) (by decide) (by decide)
    (by decide) (by decide) (by decide)
  exact ⟨h.1, h.2.2.2.2.2.2.2.1 (by decide)⟩


/-- C9 counterexample: this row is processed, its five administrative fields
are all empty, yet no price cell receives the `brak adresu` sentinel (the
skip test counts the `Ulica` column as well, so the row falls through
untouched). -/
theorem admin_empty_claim_cex :
    (processRow [] false r9).counted = true ∧
    (processRow [] false r9).out.cena1 ≠ BRAK ∧
    (processRow [] false r9).out.cena2 ≠ BRAK ∧
    (processRow [] false r9).out.cena3 ≠ BRAK := by decide


/-- The empty string is not a city with county rights. -/
theorem cc_not_empty : "" ∉ CITY_COUNTY := by decide


/-- Cleaning the empty string. -/
theorem czysc_empty : czysc "" = "" := by decide


/-- A clean city-with-county-rights record with all three fields equal is a
fixed point of the consistency pass. -/
theorem consistencyPass_fix_cc (v : String) (hv : czysc v = v) (hcc : v ∈ CITY_COUNTY) :
    consistencyPass ⟨v, v, v⟩ = ⟨v, v, v⟩ := by
  have hne : v ≠ "" := fun h => cc_not_empty (h ▸ hcc)
  simp [consistencyPass, hv, hne, hcc]


/-- A clean record `⟨g, q, g⟩` whose locality is not a city with county
rights is a fixed point of the consistency pass. -/
theorem consistencyPass_fix_notcc (g q : String) (hg : czysc g = g) (hq : czysc q = q)
    (hne : g ≠ "") (hcc : g ∉ CITY_COUNTY) :
    consistencyPass ⟨g, q, g⟩ = ⟨g, q, g⟩ := by
  simp [consistencyPass, hg, hq, hne, hcc]


/-- C5 (amended): the consistency pass is idempotent on records whose three
fields are whitespace-clean and in which any two case-insensitively equal
fields are literally equal (the counterexample shows idempotence fails
without this: a case-variant pair flips the locality's casing on the second
application). -/
theorem consistencyPass_idem (r : ARow)
    (hm : czysc r.miejscowosc = r.miejscowosc)
    (hp : czysc r.powiat = r.powiat)
    (hg : czysc r.gmina = r.gmina)
    (hmp : pyLower r.miejscowosc = pyLower r.powiat → r.miejscowosc = r.powiat)
    (hmg : pyLower r.miejscowosc = pyLower r.gmina → r.miejscowosc = r.gmina)
    (hpg : pyLower r.powiat = pyLower r.gmina → r.powiat = r.gmina) :
    consistencyPass (consistencyPass r) = consistencyPass r := by
  obtain ⟨M, P, G⟩ := r
  dsimp only at hm hp hg hmp hmg hpg
  by_cases h1 : M = "" ∧ G ≠ ""
  · have key : consistencyPass ⟨M, P, G⟩ =
        if G ∈ CITY_COUNTY then
          ⟨G, if P = "" ∨ pyLower P ≠ pyLower G then G else P, G⟩
        else ⟨G, P, G⟩ := by
      simp [consistencyPass, hm, hp, hg, h1.1, h1.2, czysc_empty]
    rw [key]
    by_cases hcc : G ∈ CITY_COUNTY
    · rw [if_pos hcc]
      by_cases hPA : P = "" ∨ pyLower P ≠ pyLower G
      · rw [if_pos hPA]
        exact consistencyPass_fix_cc G hg hcc
      · rw [if_neg hPA]
        push_neg at hPA
        rw [hpg hPA.2]
        exact consistencyPass_fix_cc G hg hcc
    · rw [if_neg hcc]
      exact consistencyPass_fix_notcc G P hg hp h1.2 hcc
  · by_cases h2 : M ≠ "" ∧ P ≠ "" ∧ pyLower M = pyLower P ∧ G ≠ ""
    · have key : consistencyPass ⟨M, P, G⟩ =
          if G ∈ CITY_COUNTY then
            ⟨G, if P = "" ∨ pyLower P ≠ pyLower G then G else P, G⟩
          else ⟨G, P, G⟩ := by
        simp [consistencyPass, hm, hp, hg, h1, h2.1, h2.2.1, h2.2.2.1, h2.2.2.2]
      rw [key]
      by_cases hcc : G ∈ CITY_COUNTY
      · rw [if_pos hcc]
        by_cases hPA : P = "" ∨ pyLower P ≠ pyLower G
        · rw [if_pos hPA]
          exact consistencyPass_fix_cc G hg hcc
        · rw [if_neg hPA]
          push_neg at hPA
          rw [hpg hPA.2]
          exact consistencyPass_fix_cc G hg hcc
      · rw [if_neg hcc]
        exact consistencyPass_fix_notcc G P hg hp h2.2.2.2 hcc
    · by_cases hcc : M ∈ CITY_COUNTY
      · have hMne : M ≠ "" := fun h => cc_not_empty (h ▸ hcc)
        have key : consistencyPass ⟨M, P, G⟩ =
            ⟨M, if P = "" ∨ pyLower P ≠ pyLower M then M else P,
                if G = "" ∨ pyLower G ≠ pyLower M then M else G⟩ := by
          simp [consistencyPass, hm, hp, hg, h1, h2, hcc]
        have hPM : (if P = "" ∨ pyLower P ≠ pyLower M then M else P) = M := by
          by_cases hPA : P = "" ∨ pyLower P ≠ pyLower M
          · rw [if_pos hPA]
          · rw [if_neg hPA]
            push_neg at hPA
            exact (hmp hPA.2.symm).symm
        have hGM : (if G = "" ∨ pyLower G ≠ pyLower M then M else G) = M := by
          by_cases hGA : G = "" ∨ pyLower G ≠ pyLower M
          · rw [if_pos hGA]
          · rw [if_neg hGA]
            push_neg at hGA
            exact (hmg hGA.2.symm).symm
        rw [key, hPM, hGM]
        exact consistencyPass_fix_cc M hm hcc
      · have key : consistencyPass ⟨M, P, G⟩ = ⟨M, P, G⟩ := by
          simp [consistencyPass, hm, hp, hg, h1, h2, hcc]
        rw [key]
        exact key


/-- C5 counterexample: on `⟨"Warszawa", "", "warszawa"⟩` the second
application of the consistency pass changes the record again (the first sets
`powiat := "Warszawa"`, the second then rewrites the locality to the
lowercase municipality), so the pass is not idempotent as claimed. -/
theorem consistency_idem_cex :
    consistencyPass (consistencyPass r5) ≠ consistencyPass r5 := by decide


/-- C5 witness. -/
theorem consistencyPass_idem_wit :
    consistencyPass (consistencyPass ⟨"Kraków", "", ""⟩) =
      consistencyPass ⟨"Kraków", "", ""⟩ :=
  consistencyPass_idem ⟨"Kraków", "", ""⟩ (by decide) (by decide) (by decide)
    (by decide) (by decide) (by decide)


/-- C6 (amended): after one consistency pass, whenever the cleaned locality
is a city with county rights, the cleaned county and the cleaned municipality
agree with the cleaned locality case-insensitively (exact equality can fail:
a pre-existing case-variant county such as `"warszawa"` is kept as is, see
the counterexample). -/
theorem consistencyPass_cc_invariant (r : ARow)
    (hcc : czysc (consistencyPass r).miejscowosc ∈ CITY_COUNTY) :
    pyLower (czysc (consistencyPass r).powiat) =
      pyLower (czysc (consistencyPass r).miejscowosc) ∧
    pyLower (czysc (consistencyPass r).gmina) =
      pyLower (czysc (consistencyPass r).miejscowosc) := by
  obtain ⟨M, P, G⟩ := r
  by_cases h1 : czysc M = "" ∧ czysc G ≠ ""
  · by_cases hin : czysc G ∈ CITY_COUNTY
    · by_cases hPA : czysc P = "" ∨ pyLower (czysc P) ≠ pyLower (czysc G)
      · have key : consistencyPass ⟨M, P, G⟩ = ⟨czysc G, czysc G, G⟩ := by
          simp [consistencyPass, h1.1, h1.2, hin, hPA]
        rw [key] at hcc ⊢
        dsimp only at hcc ⊢
        rw [czysc_idem] at hcc ⊢
        exact ⟨rfl, rfl⟩
      · have key : consistencyPass ⟨M, P, G⟩ = ⟨czysc G, P, G⟩ := by
          simp [consistencyPass, h1.1, h1.2, hin, hPA]
        rw [key] at hcc ⊢
        dsimp only at hcc ⊢
        rw [czysc_idem] at hcc ⊢
        push_neg at hPA
        exact ⟨hPA.2, rfl⟩
    · have key : consistencyPass ⟨M, P, G⟩ = ⟨czysc G, P, G⟩ := by
        simp [consistencyPass, h1.1, h1.2, hin]
      rw [key] at hcc
      dsimp only at hcc
      rw [czysc_idem] at hcc
      exact absurd hcc hin
  · by_cases h2 : czysc M ≠ "" ∧ czysc P ≠ "" ∧
        pyLower (czysc M) = pyLower (czysc P) ∧ czysc G ≠ ""
    · by_cases hin : czysc G ∈ CITY_COUNTY
      · by_cases hPA : czysc P = "" ∨ pyLower (czysc P) ≠ pyLower (czysc G)
        · have hPA2 : pyLower (czysc P) ≠ pyLower (czysc G) := hPA.resolve_left h2.2.1
          have key : consistencyPass ⟨M, P, G⟩ = ⟨czysc G, czysc G, G⟩ := by
            simp [consistencyPass, h1, h2.1, h2.2.1, h2.2.2.1, h2.2.2.2, hin, hPA2]
          rw [key] at hcc ⊢
          dsimp only at hcc ⊢
          rw [czysc_idem] at hcc ⊢
          exact ⟨rfl, rfl⟩
        · push_neg at hPA
          have key : consistencyPass ⟨M, P, G⟩ = ⟨czysc G, P, G⟩ := by
            simp [consistencyPass, h1, h2.1, h2.2.1, h2.2.2.1, h2.2.2.2, hin, hPA.2]
          rw [key] at hcc ⊢
          dsimp only at hcc ⊢
          rw [czysc_idem] at hcc ⊢
          exact ⟨hPA.2, rfl⟩
      · have key : consistencyPass ⟨M, P, G⟩ = ⟨czysc G, P, G⟩ := by
          simp [consistencyPass, h1, h2.1, h2.2.1, h2.2.2.1, h2.2.2.2, hin]
        rw [key] at hcc
        dsimp only at hcc
        rw [czysc_idem] at hcc
        exact absurd hcc hin
    · by_cases hin : czysc M ∈ CITY_COUNTY
      · by_cases hPA : czysc P = "" ∨ pyLower (czysc P) ≠ pyLower (czysc M)
        · by_cases hGA : czysc G = "" ∨ pyLower (czysc G) ≠ pyLower (czysc M)
          · have key : consistencyPass ⟨M, P, G⟩ = ⟨M, czysc M, czysc M⟩ := by
              simp [consistencyPass, h1, h2, hin, hPA, hGA]
            rw [key]
            dsimp only
            rw [czysc_idem]
            exact ⟨rfl, rfl⟩
          · have key : consistencyPass ⟨M, P, G⟩ = ⟨M, czysc M, G⟩ := by
              simp [consistencyPass, h1, h2, hin, hPA, hGA]
            rw [key]
            dsimp only
            rw [czysc_idem]
            push_neg at hGA
            exact ⟨rfl, hGA.2⟩
        · by_cases hGA : czysc G = "" ∨ pyLower (czysc G) ≠ pyLower (czysc M)
          · have key : consistencyPass ⟨M, P, G⟩ = ⟨M, P, czysc M⟩ := by
              simp [consistencyPass, h1, h2, hin, hPA, hGA]
            rw [key]
            dsimp only
            rw [czysc_idem]
            push_neg at hPA
            exact ⟨hPA.2, rfl⟩
          · have key : consistencyPass ⟨M, P, G⟩ = ⟨M, P, G⟩ := by
              simp [consistencyPass, h1, h2, hin, hPA, hGA]
            rw [key]
            push_neg at hPA hGA
            exact ⟨hPA.2, hGA.2⟩
      · have key : consistencyPass ⟨M, P, G⟩ = ⟨M, P, G⟩ := by
          simp [consistencyPass, h1, h2, hin]
        rw [key] at hcc
        exact absurd hcc hin


/-- C6 witness: a bare city-with-county-rights locality gets its county and
municipality forced to the city. -/
theorem consistencyPass_cc_invariant_wit :
    pyLower (czysc (consistencyPass ⟨"Warszawa", "", ""⟩).powiat) =
      pyLower (czysc (consistencyPass ⟨"Warszawa", "", ""⟩).miejscowosc) ∧
    pyLower (czysc (consistencyPass ⟨"Warszawa", "", ""⟩).gmina) =
      pyLower (czysc (consistencyPass ⟨"Warszawa", "", ""⟩).miejscowosc) :=
  consistencyPass_cc_invariant ⟨"Warszawa", "", ""⟩ (by decide)


/-- C6 counterexample: after the pass the locality `"Warszawa"` is a city
with county rights, but the county field is the untouched case-variant
`"warszawa"`, so `county == locality` fails as literal equality. -/
theorem cc_invariant_claim_cex :
    (consistencyPass r6).miejscowosc ∈ CITY_COUNTY ∧
    (consistencyPass r6).powiat ≠ (consistencyPass r6).miejscowosc := by decide
